import Mathlib

/-!
Shallow embedding of the tool-augmented conversation loop of
`inception_agent.py` (class `InceptionAgent`) and of the guardrailed chat
agent of `interactive_agent.py` (class `ChatAgent`).

The remote completion service and the remote moderation endpoint are
external collaborators; they are modelled as explicit function parameters.
Python exceptions are modelled with `Except String` (the carried string is
`str(e)`): a value `.error e` at the top level of an operation models an
exception propagating out of that operation, while the paired agent state
records the mutations performed before the exception was raised, matching
Python's in-place mutation of `self.conversation_history`.
-/

set_option autoImplicit false

deriving instance DecidableEq for Except

/-- Parsed JSON argument object, as handed to a tool callable via `**kwargs`:
a finite map from argument names to (opaque) argument values. -/
abbrev Args := List (String × String)

/-- The serialized argument payload carried by a tool call
(`tool_call["function"]["arguments"]` in the source, a JSON string).
`wellFormed a` is a string that `json.loads` parses to `a`;
`malformed raw` is a string on which `json.loads` raises. -/
inductive ArgPayload where
  | wellFormed (args : Args)
  | malformed (raw : String)
  deriving DecidableEq

/-- Whether `json.loads` would succeed on this payload. -/
def ArgPayload.isWellFormed : ArgPayload → Bool
  | .wellFormed _ => true
  | .malformed _ => false

/-- Models `json.loads(tool_call["function"]["arguments"])` (line 100 of
`inception_agent.py`): returns the parsed object or raises
`json.JSONDecodeError`, whose message we render as `"Invalid JSON: " ++ raw`. -/
def json_loads : ArgPayload → Except String Args
  | .wellFormed args => .ok args
  | .malformed raw => .error ("Invalid JSON: " ++ raw)

/-- One entry of an assistant message's `tool_calls` array:
`{id, function: {name, arguments}}`. -/
structure ToolCall where
  id : String
  name : String
  arguments : ArgPayload
  deriving DecidableEq

/-- One transcript entry (`conversation_history` element). `tool_call_id`
is present only on tool messages; `tool_calls` is the (possibly absent,
modelled as empty) list attached to assistant responses. The truthiness
test `assistant_message.get("tool_calls")` in the source treats a missing
key and an empty list identically, so the empty list models both. -/
structure Message where
  role : String
  content : String
  tool_call_id : Option String
  tool_calls : List ToolCall
  deriving DecidableEq

/-- One entry of `self.tools`, as built by `add_tool` (lines 86-93):
`{"type": "function", "function": {"name", "description", "parameters"}}`.
The constant `"type": "function"` wrapper is implicit; `parameters` is the
opaque JSON schema. -/
structure ToolDef where
  name : String
  description : String
  parameters : String
  deriving DecidableEq

/-- A registered tool callable: takes the parsed arguments and either
returns its result already serialized by `json.dumps` (`.ok`) or raises
(`.error (str e)`). Both the call and the `json.dumps` on its result sit
inside the `try` of `execute_tool_call`, so a serialization failure is
the same observable as the callable raising. -/
abbrev ToolFn := Args → Except String String

/-- State of an `InceptionAgent` (lines 60-74). The network client
`inception_model` is an external collaborator and is not part of the
state; the remote service appears as a parameter of `chat`. -/
structure InceptionAgent where
  model : String
  system_prompt : String
  conversation_history : List Message
  tools : List ToolDef
  tool_functions : List (String × ToolFn)

/-- The remote completion service: receives the transcript, the model
identifier and the tool definitions (`None` when the list is empty, as in
`self.tools if self.tools else None`), and returns one assistant message
(`response["choices"][0]["message"]`). -/
abbrev Service := List Message → String → Option (List ToolDef) → Message

/-- `self.tools if self.tools else None` (line 130). -/
def toolsArg (ts : List ToolDef) : Option (List ToolDef) :=
  if ts.isEmpty then none else some ts

/-- The initial system message `{"role": "system", "content": system_prompt}`. -/
def systemMsg (system_prompt : String) : Message :=
  { role := "system", content := system_prompt, tool_call_id := none, tool_calls := [] }

/-- The user message appended by `chat` (lines 117-120). -/
def userMsg (user_message : String) : Message :=
  { role := "user", content := user_message, tool_call_id := none, tool_calls := [] }

/-- The tool-result message appended per tool call (lines 146-150). -/
def toolMsg (tool_call_id : String) (content : String) : Message :=
  { role := "tool", content := content, tool_call_id := some tool_call_id, tool_calls := [] }

/-- `self.conversation_history.append(m)`. -/
def appendMsg (a : InceptionAgent) (m : Message) : InceptionAgent :=
  { a with conversation_history := a.conversation_history ++ [m] }

/-- `InceptionAgent.__init__` (lines 60-74): the API key and base URL only
configure the external network client and are omitted. -/
def mkAgent (model : String) (system_prompt : String) : InceptionAgent :=
  { model := model
    system_prompt := system_prompt
    conversation_history := [systemMsg system_prompt]
    tools := []
    tool_functions := [] }

/-- Python `dict` lookup `d[k]` / membership `k in d` over the insertion-
ordered association list that models `self.tool_functions`. -/
def dictGet (k : String) : List (String × ToolFn) → Option ToolFn
  | [] => none
  | (k', v) :: rest => if k' = k then some v else dictGet k rest

/-- Python `dict` key membership `k in d`. -/
def hasKey (k : String) : List (String × ToolFn) → Bool
  | [] => false
  | (k', _) :: rest => if k' = k then true else hasKey k rest

/-- Replace the binding for `k` by `(k, v)`, leaving other entries alone. -/
def updateEntry (k : String) (v : ToolFn) : String × ToolFn → String × ToolFn
  | (k', w) => if k' = k then (k, v) else (k', w)

/-- Python `dict` assignment `d[k] = v`: update in place if the key exists
(keeping its position), otherwise append the new binding. -/
def dictInsert (d : List (String × ToolFn)) (k : String) (v : ToolFn) :
    List (String × ToolFn) :=
  if hasKey k d then
    d.map (updateEntry k v)
  else
    d ++ [(k, v)]

/-- `InceptionAgent.add_tool` (lines 76-95): appends a tool definition to
`self.tools` and assigns `self.tool_functions[name] = function`. -/
def add_tool (a : InceptionAgent) (name : String) (description : String)
    (parameters : String) (function : ToolFn) : InceptionAgent :=
  { a with
    tools := a.tools ++ [{ name := name, description := description,
                           parameters := parameters }]
    tool_functions := dictInsert a.tool_functions name function }

/-- The "not found" error string of line 103:
`f"Error: Function {function_name} not found"`. -/
def notFoundMsg (function_name : String) : String :=
  "Error: Function " ++ function_name ++ " not found"

/-- `InceptionAgent.execute_tool_call` (lines 97-109). Note the source
order: `json.loads` on the arguments runs before the registry lookup and
outside the `try`, so a parse failure raises (`.error`); the not-found
case and a raising callable both produce an ordinary string (`.ok`). -/
def execute_tool_call (a : InceptionAgent) (tool_call : ToolCall) :
    Except String String :=
  match json_loads tool_call.arguments with
  | .error e => .error e
  | .ok function_args =>
    match dictGet tool_call.name a.tool_functions with
    | none => .ok (notFoundMsg tool_call.name)
    | some f =>
      match f function_args with
      | .ok result => .ok result
      | .error e => .ok ("Error executing " ++ tool_call.name ++ ": " ++ e)

/-- The `for tool_call in assistant_message["tool_calls"]` loop of `chat`
(lines 142-150): executes each call in order, appending one tool message
per call. On an uncaught exception (`execute_tool_call` raising) the
exception propagates (`some e`) and the messages appended so far remain. -/
def run_tool_calls : InceptionAgent → List ToolCall → InceptionAgent × Option String
  | a, [] => (a, none)
  | a, tool_call :: rest =>
    match execute_tool_call a tool_call with
    | .error e => (a, some e)
    | .ok tool_result =>
      run_tool_calls (appendMsg a (toolMsg tool_call.id tool_result)) rest

/-- The `while iteration < max_iterations` loop of `chat` (lines 122-158),
with the remaining iteration budget as fuel. Each iteration performs one
service round trip, appends the assistant message unconditionally, then
either runs the tool calls and continues, or returns the content. With
the budget exhausted it returns the sentinel string (line 158). -/
def chat_loop (service : Service) : Nat → InceptionAgent → InceptionAgent × Except String String
  | 0, a => (a, .ok "Max iterations reached without final response")
  | fuel + 1, a =>
    let assistant_message := service a.conversation_history a.model (toolsArg a.tools)
    let a1 := appendMsg a assistant_message
    if assistant_message.tool_calls.isEmpty then
      (a1, .ok assistant_message.content)
    else
      match run_tool_calls a1 assistant_message.tool_calls with
      | (a2, some e) => (a2, .error e)
      | (a2, none) => chat_loop service fuel a2

/-- `InceptionAgent.chat` (lines 111-158): append the user message, then
run up to `max_iterations` service round trips. The default budget in the
source is 5. -/
def InceptionAgent.chat (a : InceptionAgent) (service : Service)
    (user_message : String) (max_iterations : Nat) :
    InceptionAgent × Except String String :=
  chat_loop service max_iterations (appendMsg a (userMsg user_message))

/-- Number of service round trips performed by `chat_loop` on the same
input: one per iteration actually entered, mirroring the recursion of
`chat_loop` step for step. -/
def chat_loop_count (service : Service) : Nat → InceptionAgent → Nat
  | 0, _ => 0
  | fuel + 1, a =>
    let assistant_message := service a.conversation_history a.model (toolsArg a.tools)
    let a1 := appendMsg a assistant_message
    if assistant_message.tool_calls.isEmpty then
      1
    else
      match run_tool_calls a1 assistant_message.tool_calls with
      | (_, some _) => 1
      | (a2, none) => 1 + chat_loop_count service fuel a2

/-- Number of service round trips performed by `InceptionAgent.chat`. -/
def chat_calls (a : InceptionAgent) (service : Service)
    (user_message : String) (max_iterations : Nat) : Nat :=
  chat_loop_count service max_iterations (appendMsg a (userMsg user_message))

/-- `InceptionAgent.reset_conversation` (lines 160-164). -/
def reset_conversation (a : InceptionAgent) : InceptionAgent :=
  { a with conversation_history := [systemMsg a.system_prompt] }

/-- One externally visible operation on an agent, for stating invariants
over arbitrary call sequences. -/
inductive AgentOp where
  | send (service : Service) (userText : String) (maxIter : Nat)
  | register (name description parameters : String) (f : ToolFn)
  | reset

/-- Apply one operation to the agent state. -/
def applyOp (a : InceptionAgent) : AgentOp → InceptionAgent
  | .send service u n => (a.chat service u n).1
  | .register name d p f => add_tool a name d p f
  | .reset => reset_conversation a

/-!
Embedding of `interactive_agent.py` (class `ChatAgent`): a guardrailed
single-turn chat over a plain role/content message list. The two remote
endpoints (OpenAI moderation, Mercury completion) are parameters; each is
`Except String`-valued, `.error (str e)` modelling the client call raising.
-/

/-- A plain `{"role", "content"}` transcript entry of `ChatAgent.messages`. -/
structure ChatMsg where
  role : String
  content : String
  deriving DecidableEq

/-- One moderation result (`moderation_response.results[0]`): the overall
`flagged` boolean, and the per-category booleans of
`result.categories.model_dump().items()` in iteration order. -/
structure ModerationResult where
  flagged : Bool
  categories : List (String × Bool)
  deriving DecidableEq

/-- The remote moderation endpoint
(`self.openai_client.moderations.create(input=s, ...)`). -/
abbrev Moderator := String → Except String ModerationResult

/-- The remote Mercury completion endpoint, returning
`response.choices[0].message.content`
(`self.mercury_client.chat.completions.create(...)`). -/
abbrev Completion := List ChatMsg → Except String String

/-- `[category for category, flagged in result.categories.model_dump().items() if flagged]`. -/
def flagged_categories (result : ModerationResult) : List String :=
  (result.categories.filter (fun p => p.2)).map (fun p => p.1)

/-- State of a `ChatAgent` (lines 46-51 of `interactive_agent.py`): just
the message list; the two clients are external collaborators. -/
structure ChatAgent where
  messages : List ChatMsg
  deriving DecidableEq

/-- `ChatAgent.__init__` (lines 46-51). -/
def mkChatAgent : ChatAgent :=
  { messages := [{ role := "system",
                   content := "You are a helpful, friendly assistant. Be concise but informative." }] }

/-- `ChatAgent.check_input_safety` (lines 53-78): ask the moderation
endpoint; on `flagged` return `(False, violation text)`, otherwise
`(True, "")`; if the call raises, catch and return `(True, "")`
(fail open). -/
def check_input_safety (openai_client : Moderator) (user_input : String) :
    Bool × String :=
  match openai_client user_input with
  | .ok result =>
    if result.flagged then
      (false, "Content policy violation: " ++
        String.intercalate ", " (flagged_categories result))
    else
      (true, "")
  | .error _ => (true, "")

/-- `ChatAgent.check_output_safety` (lines 80-104): same structure as the
input check, with the block message of line 97; also fails open. -/
def check_output_safety (openai_client : Moderator) (output : String) :
    Bool × String :=
  match openai_client output with
  | .ok result =>
    if result.flagged then
      (false, "Response blocked due to: " ++
        String.intercalate ", " (flagged_categories result))
    else
      (true, "")
  | .error _ => (true, "")

/-- The body of `ChatAgent.chat` from line 113 on, i.e. everything after
the input guardrail has passed: append the user message, perform the
Mercury round trip inside a `try` whose `except` returns an error string,
run the output guardrail, then commit the assistant message. -/
def chat_after_input_guardrail (ag : ChatAgent) (openai_client : Moderator)
    (mercury_client : Completion) (user_input : String) : ChatAgent × String :=
  let ag1 : ChatAgent := { messages := ag.messages ++ [{ role := "user", content := user_input }] }
  match mercury_client ag1.messages with
  | .error e => (ag1, "❌ Error: " ++ e)
  | .ok output =>
    let checked2 := check_output_safety openai_client output
    if checked2.1 = false then
      (ag1, "❌ Response was blocked by safety guardrails. " ++ checked2.2)
    else
      ({ messages := ag1.messages ++ [{ role := "assistant", content := output }] }, output)

/-- `ChatAgent.chat` (lines 106-140): input guardrail, then the rest of
the turn (`chat_after_input_guardrail`). The returned pair is the
(possibly mutated) state and the string handed back to the caller. -/
def ChatAgent.chat (ag : ChatAgent) (openai_client : Moderator)
    (mercury_client : Completion) (user_input : String) : ChatAgent × String :=
  let checked := check_input_safety openai_client user_input
  if checked.1 = false then
    (ag, "❌ I cannot process that request. " ++ checked.2)
  else
    chat_after_input_guardrail ag openai_client mercury_client user_input

/-- A moderation endpoint that never flags anything, for comparison with a
failing one: an agent whose guardrail fails open behaves exactly as if
moderation had answered "not flagged". -/
def allowAllModerator : Moderator :=
  fun _ => .ok { flagged := false, categories := [] }

/-- Assistant message requesting one well-formed call (for `c4_witness`). -/
def c4wAsst : Message :=
  { role := "assistant", content := "", tool_call_id := none,
    tool_calls := [⟨"call-1", "noop", ArgPayload.wellFormed []⟩] }

/-- Service whose single response carries two tool calls, the second with
a malformed argument payload (for `c4_counterexample`). -/
def c4BadService : Service := fun _ _ _ =>
  { role := "assistant", content := "", tool_call_id := none,
    tool_calls := [⟨"id1", "f", ArgPayload.wellFormed []⟩,
                   ⟨"id2", "g", ArgPayload.malformed "oops"⟩] }

/-- Service that always requests one (well-formed) call to an unregistered
tool (for `c1_counterexample`). -/
def c1Service : Service := fun _ _ _ =>
  { role := "assistant", content := "", tool_call_id := none,
    tool_calls := [⟨"c1", "missing", ArgPayload.wellFormed []⟩] }

/-- Service that immediately answers without tool calls
(for `c1_witness`). -/
def c1wService : Service := fun _ _ _ =>
  { role := "assistant", content := "fine", tool_call_id := none,
    tool_calls := [] }

/-- A registered callable that always raises (for the C2 witness). -/
def c2wFn : ToolFn := fun _ => Except.error "boom"

/-- Agent with the raising callable registered (for the C2 witness). -/
def c2wAgent : InceptionAgent :=
  add_tool (mkAgent "m" "s") "breaker" "always raises" "schema" c2wFn

/-- Service that always requests one well-formed call to the raising
callable (for the C2 witness). -/
def c2wService : Service := fun _ _ _ =>
  { role := "assistant", content := "", tool_call_id := none,
    tool_calls := [⟨"t1", "breaker", ArgPayload.wellFormed []⟩] }

/-- Service that requests a call whose argument payload is malformed
(for `c2_counterexample`). -/
def c2BadService : Service := fun _ _ _ =>
  { role := "assistant", content := "", tool_call_id := none,
    tool_calls := [⟨"t1", "echo", ArgPayload.malformed "not json"⟩] }

/-- Agent with a registered tool named `echo` (for `c2_counterexample`). -/
def c2cexAgent : InceptionAgent :=
  add_tool (mkAgent "m" "s") "echo" "echoes" "schema" (fun _ => Except.ok "ok")

/-- Service that always requests one well-formed call to an unregistered
tool (for the C5 witness). -/
def c5wService : Service := fun _ _ _ =>
  { role := "assistant", content := "", tool_call_id := none,
    tool_calls := [⟨"g1", "ghost", ArgPayload.wellFormed []⟩] }

/-- Service that always requests a tool call with a malformed argument
payload (for `c5_counterexample`). -/
def c5BadService : Service := fun _ _ _ =>
  { role := "assistant", content := "", tool_call_id := none,
    tool_calls := [⟨"b1", "ghost", ArgPayload.malformed "oops"⟩] }

/-- Service requesting a call to an unregistered name with a malformed
payload (for `c6_counterexample`). -/
def c6BadService : Service := fun _ _ _ =>
  { role := "assistant", content := "", tool_call_id := none,
    tool_calls := [⟨"n1", "nosuch", ArgPayload.malformed "bad"⟩] }

/-- First response of the C6 witness service: request `lookup`. -/
def c6wFirst : Message :=
  { role := "assistant", content := "", tool_call_id := none,
    tool_calls := [⟨"w1", "lookup", ArgPayload.wellFormed []⟩] }

/-- Second response of the C6 witness service: a plain answer. -/
def c6wSecond : Message :=
  { role := "assistant", content := "done", tool_call_id := none,
    tool_calls := [] }

/-- Two-phase service for the C6 witness: requests the unregistered tool
once, then answers. -/
def c6wService : Service := fun msgs _ _ =>
  if msgs.length ≤ 2 then c6wFirst else c6wSecond

/-- The registered no-op callable of the C7 scenario: a Python function
returning `None`, serialized by `json.dumps` to `"null"`. -/
def c7Fn : ToolFn := fun _ => Except.ok "null"

/-- Agent with the no-op tool registered (C7 scenario). -/
def c7Agent : InceptionAgent :=
  add_tool (mkAgent "test-model" "You are helpful.") "noop" "does nothing"
    "empty-schema" c7Fn

/-- Service that always requests one call to the registered no-op tool
(C7 scenario). -/
def c7Service : Service := fun _ _ _ =>
  { role := "assistant", content := "", tool_call_id := none,
    tool_calls := [⟨"call-1", "noop", ArgPayload.wellFormed []⟩] }

/-- First callable registered under the duplicate name (C8 scenario). -/
def c8f1 : ToolFn := fun _ => Except.ok "one"

/-- Second callable registered under the duplicate name (C8 scenario). -/
def c8f2 : ToolFn := fun _ => Except.ok "two"

/-- Agent after registering the same name twice (C8 scenario). -/
def c8Agent : InceptionAgent :=
  add_tool (add_tool (mkAgent "m" "s") "dup" "first version" "schema-a" c8f1)
    "dup" "second version" "schema-b" c8f2

/-- A moderation endpoint whose client call always raises
(for the C10 witness). -/
def c10Moderator : Moderator := fun _ => Except.error "api down"

/-- A completion endpoint returning a fixed answer (for the C10 witness). -/
def c10Completion : Completion := fun _ => Except.ok "hello there"

/-! ### Helper lemmas -/

theorem isWellFormed_iff (p : ArgPayload) :
    p.isWellFormed = true ↔ ∃ a, p = ArgPayload.wellFormed a := by
  cases p <;> simp [ArgPayload.isWellFormed]

theorem execute_tool_call_isOk (a : InceptionAgent) (tc : ToolCall)
    (h : tc.arguments.isWellFormed = true) :
    ∃ s, execute_tool_call a tc = Except.ok s := by
  obtain ⟨args, ha⟩ := (isWellFormed_iff tc.arguments).mp h
  simp only [execute_tool_call, ha, json_loads]
  cases hd : dictGet tc.name a.tool_functions with
  | none => exact ⟨_, rfl⟩
  | some f =>
    cases hf : f args with
    | ok r => exact ⟨r, by simp [hf]⟩
    | error e =>
      exact ⟨"Error executing " ++ tc.name ++ ": " ++ e, by simp [hf]⟩

theorem run_tool_calls_none (tcs : List ToolCall) :
    ∀ a : InceptionAgent, (∀ tc ∈ tcs, tc.arguments.isWellFormed = true) →
    (run_tool_calls a tcs).2 = none := by
  induction tcs with
  | nil => intro a _; rfl
  | cons tc rest ih =>
    intro a h
    obtain ⟨s, hs⟩ := execute_tool_call_isOk a tc (h tc (by simp))
    simp only [run_tool_calls, hs]
    exact ih _ (fun tc' htc' => h tc' (by simp [htc']))

theorem run_tool_calls_state (tcs : List ToolCall) :
    ∀ a : InceptionAgent, ∃ l,
      (run_tool_calls a tcs).1 =
        { a with conversation_history := a.conversation_history ++ l } := by
  induction tcs with
  | nil => intro a; exact ⟨[], by simp [run_tool_calls]⟩
  | cons tc rest ih =>
    intro a
    cases hx : execute_tool_call a tc with
    | error e => exact ⟨[], by simp [run_tool_calls, hx]⟩
    | ok s =>
      obtain ⟨l, hl⟩ := ih (appendMsg a (toolMsg tc.id s))
      refine ⟨toolMsg tc.id s :: l, ?_⟩
      simp only [run_tool_calls, hx]
      rw [hl]
      simp [appendMsg]

theorem run_tool_calls_transcript (tcs : List ToolCall) :
    ∀ a : InceptionAgent, (run_tool_calls a tcs).2 = none →
    ∃ results : List String, results.length = tcs.length ∧
      (run_tool_calls a tcs).1.conversation_history =
        a.conversation_history ++
          (tcs.zip results).map (fun p => toolMsg p.1.id p.2) := by
  induction tcs with
  | nil => intro a _; exact ⟨[], by simp [run_tool_calls]⟩
  | cons tc rest ih =>
    intro a h
    cases hx : execute_tool_call a tc with
    | error e => simp [run_tool_calls, hx] at h
    | ok s =>
      simp only [run_tool_calls, hx] at h ⊢
      obtain ⟨results, hlen, hhist⟩ := ih (appendMsg a (toolMsg tc.id s)) h
      refine ⟨s :: results, by simp [hlen], ?_⟩
      rw [hhist]
      simp [appendMsg, List.zip]

theorem chat_loop_state (service : Service) (n : Nat) :
    ∀ a : InceptionAgent, ∃ l,
      (chat_loop service n a).1 =
        { a with conversation_history := a.conversation_history ++ l } := by
  induction n with
  | zero => intro a; exact ⟨[], by simp [chat_loop]⟩
  | succ fuel ih =>
    intro a
    simp only [chat_loop]
    set msg := service a.conversation_history a.model (toolsArg a.tools) with hmsg
    split
    next hEmpty =>
      exact ⟨[msg], by simp [appendMsg]⟩
    next hEmpty =>
      split
      next a2 e hrun =>
        obtain ⟨l1, hl1⟩ := run_tool_calls_state msg.tool_calls (appendMsg a msg)
        rw [hrun] at hl1
        exact ⟨msg :: l1, hl1.trans (by simp [appendMsg, List.append_assoc])⟩
      next a2 hrun =>
        obtain ⟨l1, hl1⟩ := run_tool_calls_state msg.tool_calls (appendMsg a msg)
        rw [hrun] at hl1
        have hl1' : a2 = _ := hl1
        obtain ⟨l2, hl2⟩ := ih a2
        exact ⟨msg :: (l1 ++ l2),
          hl2.trans (by rw [hl1']; simp [appendMsg, List.append_assoc])⟩

theorem dictGet_map_update_self (k : String) (v : ToolFn) :
    ∀ d : List (String × ToolFn), hasKey k d = true →
      dictGet k (d.map (updateEntry k v)) = some v := by
  intro d
  induction d with
  | nil => intro h; simp [hasKey] at h
  | cons p rest ih =>
    obtain ⟨k0, w⟩ := p
    intro h
    rw [List.map_cons]
    by_cases hp : k0 = k
    · simp only [updateEntry]
      rw [if_pos hp]
      simp [dictGet]
    · simp only [updateEntry]
      rw [if_neg hp]
      simp only [dictGet, if_neg hp]
      exact ih (by simpa [hasKey, hp] using h)

theorem dictGet_map_update_ne (k : String) (v : ToolFn) (k' : String) (hne : k' ≠ k) :
    ∀ d : List (String × ToolFn),
      dictGet k' (d.map (updateEntry k v)) = dictGet k' d := by
  intro d
  induction d with
  | nil => simp
  | cons p rest ih =>
    obtain ⟨k0, w⟩ := p
    rw [List.map_cons]
    by_cases hp : k0 = k
    · simp only [updateEntry]
      rw [if_pos hp]
      have h1 : ¬ k = k' := fun hc => hne hc.symm
      have h2 : ¬ k0 = k' := by rw [hp]; exact h1
      simp only [dictGet, if_neg h1, if_neg h2]
      exact ih
    · simp only [updateEntry]
      rw [if_neg hp]
      by_cases hp' : k0 = k'
      · simp only [dictGet, if_pos hp']
      · simp only [dictGet, if_neg hp']
        exact ih

theorem dictGet_append_single_self (k : String) (v : ToolFn) :
    ∀ d : List (String × ToolFn), hasKey k d = false →
      dictGet k (d ++ [(k, v)]) = some v := by
  intro d
  induction d with
  | nil => simp [dictGet]
  | cons p rest ih =>
    obtain ⟨k0, w⟩ := p
    intro h
    have hp : ¬ k0 = k := by
      intro hc
      subst hc
      simp [hasKey] at h
    have hrest : hasKey k rest = false := by simpa [hasKey, hp] using h
    simp [dictGet, hp, ih hrest]

theorem dictGet_append_single_ne (k : String) (v : ToolFn) (k' : String) (hne : k' ≠ k) :
    ∀ d : List (String × ToolFn), dictGet k' (d ++ [(k, v)]) = dictGet k' d := by
  intro d
  induction d with
  | nil => simp [dictGet, Ne.symm hne]
  | cons p rest ih =>
    obtain ⟨k0, w⟩ := p
    by_cases hp' : k0 = k'
    · subst hp'
      simp [dictGet]
    · simp [dictGet, hp', ih]

theorem dictGet_dictInsert_self (d : List (String × ToolFn)) (k : String) (v : ToolFn) :
    dictGet k (dictInsert d k v) = some v := by
  unfold dictInsert
  by_cases h : hasKey k d
  · simp only [h, if_true]
    exact dictGet_map_update_self k v d h
  · simp only [h, if_false]
    exact dictGet_append_single_self k v d (by simpa using h)

theorem dictGet_dictInsert_ne (d : List (String × ToolFn)) (k : String) (v : ToolFn)
    (k' : String) (hne : k' ≠ k) :
    dictGet k' (dictInsert d k v) = dictGet k' d := by
  unfold dictInsert
  by_cases h : hasKey k d
  · simp only [h, if_true]
    exact dictGet_map_update_ne k v k' hne d
  · simp only [h, if_false]
    exact dictGet_append_single_ne k v k' hne d

theorem head?_append (xs ys : List Message) (m : Message)
    (h : xs.head? = some m) : (xs ++ ys).head? = some m := by
  cases xs with
  | nil => simp at h
  | cons x rest => simpa using h

theorem run_tool_calls_last (tcs : List ToolCall) :
    ∀ a : InceptionAgent, tcs ≠ [] → (run_tool_calls a tcs).2 = none →
    ∃ m, (run_tool_calls a tcs).1.conversation_history.getLast? = some m ∧
      m.role = "tool" := by
  induction tcs with
  | nil => intro a h _; exact absurd rfl h
  | cons tc rest ih =>
    intro a _ h2
    cases hx : execute_tool_call a tc with
    | error e => simp [run_tool_calls, hx] at h2
    | ok s =>
      simp only [run_tool_calls, hx] at h2 ⊢
      by_cases hr : rest = []
      · subst hr
        exact ⟨toolMsg tc.id s,
          by simp [run_tool_calls, appendMsg, List.getLast?_concat], rfl⟩
      · exact ih _ hr h2

theorem chat_loop_last (service : Service) :
    ∀ (n : Nat) (a : InceptionAgent) (ans : String),
      (chat_loop service n a).2 = Except.ok ans →
      (∃ m, (chat_loop service n a).1.conversation_history.getLast? = some m ∧
        ((m.tool_calls = [] ∧ ans = m.content) ∨
         (ans = "Max iterations reached without final response" ∧ m.role = "tool"))) ∨
      (n = 0 ∧ ans = "Max iterations reached without final response") := by
  intro n
  induction n with
  | zero =>
    intro a ans h
    exact Or.inr ⟨rfl, (Except.ok.inj h).symm⟩
  | succ fuel ih =>
    intro a ans h
    left
    simp only [chat_loop] at h ⊢
    set msg := service a.conversation_history a.model (toolsArg a.tools) with hmsg
    by_cases hEmpty : msg.tool_calls.isEmpty
    · rw [if_pos hEmpty] at h ⊢
      refine ⟨msg, ?_, Or.inl ⟨by simpa using hEmpty, (Except.ok.inj h).symm⟩⟩
      simp [appendMsg, List.getLast?_concat]
    · rw [if_neg hEmpty] at h ⊢
      cases hrun : run_tool_calls (appendMsg a msg) msg.tool_calls with
      | mk a2 o =>
        rw [hrun] at h
        cases o with
        | some e => exact absurd h (by simp)
        | none =>
          have h' : (chat_loop service fuel a2).2 = Except.ok ans := h
          rcases ih a2 ans h' with ⟨m, hm, hcase⟩ | ⟨hfuel, hans⟩
          · exact ⟨m, hm, hcase⟩
          · subst hfuel
            have htc : msg.tool_calls ≠ [] := by
              intro hc
              exact hEmpty (by simp [hc])
            obtain ⟨m, hm, hrole⟩ :=
              run_tool_calls_last msg.tool_calls (appendMsg a msg) htc (by rw [hrun])
            rw [hrun] at hm
            exact ⟨m, hm, Or.inr ⟨hans, hrole⟩⟩

theorem chat_loop_ok_of_wellFormed (service : Service)
    (hwf : ∀ msgs mdl tls tc, tc ∈ (service msgs mdl tls).tool_calls →
      tc.arguments.isWellFormed = true) :
    ∀ (n : Nat) (a : InceptionAgent),
      ∃ ans, (chat_loop service n a).2 = Except.ok ans := by
  intro n
  induction n with
  | zero => intro a; exact ⟨_, rfl⟩
  | succ fuel ih =>
    intro a
    simp only [chat_loop]
    set msg := service a.conversation_history a.model (toolsArg a.tools) with hmsg
    by_cases hEmpty : msg.tool_calls.isEmpty
    · rw [if_pos hEmpty]
      exact ⟨msg.content, rfl⟩
    · rw [if_neg hEmpty]
      cases hrun : run_tool_calls (appendMsg a msg) msg.tool_calls with
      | mk a2 o =>
        have h2 : (run_tool_calls (appendMsg a msg) msg.tool_calls).2 = none :=
          run_tool_calls_none msg.tool_calls (appendMsg a msg)
            (fun tc htc => hwf _ _ _ tc (by rw [← hmsg]; exact htc))
        rw [hrun] at h2
        cases o with
        | some e => simp at h2
        | none => exact ih a2

theorem chat_loop_exhausts (service : Service)
    (hcalls : ∀ msgs mdl tls, (service msgs mdl tls).tool_calls ≠ [])
    (hwf : ∀ msgs mdl tls tc, tc ∈ (service msgs mdl tls).tool_calls →
      tc.arguments.isWellFormed = true) :
    ∀ (n : Nat) (a : InceptionAgent),
      (chat_loop service n a).2 =
        Except.ok "Max iterations reached without final response" ∧
      chat_loop_count service n a = n := by
  intro n
  induction n with
  | zero => intro a; exact ⟨rfl, rfl⟩
  | succ fuel ih =>
    intro a
    have hne : ¬ (service a.conversation_history a.model
        (toolsArg a.tools)).tool_calls.isEmpty = true := by
      simp only [List.isEmpty_iff]
      exact hcalls _ _ _
    have h2 : (run_tool_calls
        (appendMsg a (service a.conversation_history a.model (toolsArg a.tools)))
        (service a.conversation_history a.model (toolsArg a.tools)).tool_calls).2 = none :=
      run_tool_calls_none _ _ (fun tc htc => hwf _ _ _ tc htc)
    constructor
    · simp only [chat_loop]
      rw [if_neg hne]
      cases hrun : run_tool_calls
          (appendMsg a (service a.conversation_history a.model (toolsArg a.tools)))
          (service a.conversation_history a.model (toolsArg a.tools)).tool_calls with
      | mk a2 o =>
        rw [hrun] at h2
        cases o with
        | some e => simp at h2
        | none => exact (ih a2).1
    · simp only [chat_loop_count]
      rw [if_neg hne]
      cases hrun : run_tool_calls
          (appendMsg a (service a.conversation_history a.model (toolsArg a.tools)))
          (service a.conversation_history a.model (toolsArg a.tools)).tool_calls with
      | mk a2 o =>
        rw [hrun] at h2
        cases o with
        | some e => simp at h2
        | none =>
          show 1 + chat_loop_count service fuel a2 = fuel + 1
          rw [(ih a2).2]
          exact Nat.add_comm 1 fuel

theorem applyOp_preserves (sp : String) (a : InceptionAgent) (op : AgentOp)
    (hsp : a.system_prompt = sp)
    (hhead : a.conversation_history.head? = some (systemMsg sp)) :
    (applyOp a op).system_prompt = sp ∧
    (applyOp a op).conversation_history.head? = some (systemMsg sp) := by
  cases op with
  | send service u n =>
    obtain ⟨l, hl⟩ := chat_loop_state service n (appendMsg a (userMsg u))
    simp only [applyOp, InceptionAgent.chat]
    rw [hl]
    refine ⟨hsp, ?_⟩
    simp only [appendMsg]
    rw [List.append_assoc]
    exact head?_append _ _ _ hhead
  | register name d p f => exact ⟨hsp, hhead⟩
  | reset =>
    refine ⟨hsp, ?_⟩
    simp [applyOp, reset_conversation, hsp]

theorem foldl_applyOp_inv (ops : List AgentOp) :
    ∀ (sp : String) (a : InceptionAgent),
      a.system_prompt = sp →
      a.conversation_history.head? = some (systemMsg sp) →
      (ops.foldl applyOp a).system_prompt = sp ∧
      (ops.foldl applyOp a).conversation_history.head? = some (systemMsg sp) := by
  induction ops with
  | nil => intro sp a h1 h2; exact ⟨h1, h2⟩
  | cons op rest ih =>
    intro sp a h1 h2
    obtain ⟨g1, g2⟩ := applyOp_preserves sp a op h1 h2
    exact ih sp (applyOp a op) g1 g2

/-! ### Claim C3 -/

/-- C3: for any sequence of operations (`chat` calls, `add_tool` calls and
`reset_conversation` calls) on a freshly constructed agent, the first
element of the transcript is always the single original system message,
and after a reset the transcript again begins with exactly that message. -/
theorem c3_first_message_invariant (ops : List AgentOp) (model sp : String) :
    ((ops.foldl applyOp (mkAgent model sp)).conversation_history).head? =
      some (systemMsg sp) :=
  (foldl_applyOp_inv ops sp (mkAgent model sp) rfl rfl).2

/-! ### Claim C9 -/

/-- C9: `reset_conversation` truncates the transcript to the single
original system message and leaves the tool definitions, the
name-to-callable mapping, the model identifier and the system prompt
exactly as they were. -/
theorem c9_reset_frame (a : InceptionAgent) :
    (reset_conversation a).conversation_history = [systemMsg a.system_prompt] ∧
    (reset_conversation a).tools = a.tools ∧
    (reset_conversation a).tool_functions = a.tool_functions ∧
    (reset_conversation a).model = a.model ∧
    (reset_conversation a).system_prompt = a.system_prompt :=
  ⟨rfl, rfl, rfl, rfl, rfl⟩

/-! ### Claim C4 -/

/-- C4, counterexample to the unconditional claim: an assistant response
with two `tool_calls` entries, the second carrying a malformed argument
payload, gets only one tool message appended (for the first entry) before
the `json.loads` exception propagates out of `chat` — not one per entry. -/
theorem c4_counterexample :
    ((mkAgent "m" "s").chat c4BadService "hi" 5).2 =
      Except.error "Invalid JSON: oops" ∧
    ((mkAgent "m" "s").chat c4BadService "hi" 5).1.conversation_history.map
      Message.role = ["system", "user", "assistant", "tool"] ∧
    (c4BadService [] "m" none).tool_calls.length = 2 := by
  decide

/-- C4 amended: in an iteration whose assistant response carries
`tool_calls` and whose tool-call processing completes without an uncaught
exception, exactly one tool message is appended per `tool_calls` entry, in
service order, each with `tool_call_id` equal to the id of the
corresponding entry of the immediately preceding assistant message. -/
theorem c4_tool_messages_amended (a : InceptionAgent) (assistant_message : Message)
    (hok : (run_tool_calls (appendMsg a assistant_message)
      assistant_message.tool_calls).2 = none) :
    ∃ results : List String,
      results.length = assistant_message.tool_calls.length ∧
      (run_tool_calls (appendMsg a assistant_message)
        assistant_message.tool_calls).1.conversation_history =
        a.conversation_history ++ [assistant_message] ++
          (assistant_message.tool_calls.zip results).map
            (fun p => toolMsg p.1.id p.2) := by
  obtain ⟨results, hlen, hh⟩ := run_tool_calls_transcript
    assistant_message.tool_calls (appendMsg a assistant_message) hok
  exact ⟨results, hlen, hh⟩

/-- Witness for `c4_tool_messages_amended` at a concrete input. -/
theorem c4_witness :
    (run_tool_calls (appendMsg (mkAgent "m" "s") c4wAsst) c4wAsst.tool_calls).2
      = none ∧
    ∃ results : List String,
      results.length = c4wAsst.tool_calls.length ∧
      (run_tool_calls (appendMsg (mkAgent "m" "s") c4wAsst)
        c4wAsst.tool_calls).1.conversation_history =
        (mkAgent "m" "s").conversation_history ++ [c4wAsst] ++
          (c4wAsst.tool_calls.zip results).map (fun p => toolMsg p.1.id p.2) :=
  ⟨by decide, c4_tool_messages_amended (mkAgent "m" "s") c4wAsst (by decide)⟩

/-! ### Claim C1 -/

/-- C1, counterexample: on budget exhaustion the transcript does not end
with the last assistant message — it ends with the tool message of the
final round (role `"tool"`), while the sentinel is indeed returned and
not appended. -/
theorem c1_counterexample :
    ((mkAgent "m" "s").chat c1Service "hi" 2).2 =
      Except.ok "Max iterations reached without final response" ∧
    ((mkAgent "m" "s").chat c1Service "hi" 2).1.conversation_history.getLast? =
      some (toolMsg "c1" (notFoundMsg "missing")) ∧
    (((mkAgent "m" "s").chat c1Service "hi" 2).1.conversation_history.getLast?).map
      Message.role ≠ some "assistant" := by
  decide

/-- C1 amended: when `chat` returns normally, the transcript ends with the
message surfaced to the caller in the tool-call-free case (the final
assistant message, whose content is the returned string); on budget
exhaustion the sentinel is not appended and the transcript instead ends
with a tool message from the final tool round. -/
theorem c1_final_message_amended (service : Service) (a : InceptionAgent)
    (u : String) (n : Nat) (ans : String) (hn : 1 ≤ n)
    (h : (a.chat service u n).2 = Except.ok ans) :
    ∃ m, (a.chat service u n).1.conversation_history.getLast? = some m ∧
      ((m.tool_calls = [] ∧ ans = m.content) ∨
       (ans = "Max iterations reached without final response" ∧
        m.role = "tool")) := by
  rcases chat_loop_last service n (appendMsg a (userMsg u)) ans h with
    hgood | ⟨hn0, _⟩
  · exact hgood
  · omega

/-- Witness for `c1_final_message_amended` at a concrete input. -/
theorem c1_witness :
    1 ≤ 1 ∧
    ((mkAgent "m" "s").chat c1wService "hi" 1).2 = Except.ok "fine" ∧
    ∃ m, ((mkAgent "m" "s").chat c1wService "hi" 1).1.conversation_history.getLast?
        = some m ∧
      ((m.tool_calls = [] ∧ "fine" = m.content) ∨
       ("fine" = "Max iterations reached without final response" ∧
        m.role = "tool")) :=
  ⟨by decide, by decide,
    c1_final_message_amended c1wService (mkAgent "m" "s") "hi" 1 "fine"
      (by decide) (by decide)⟩

/-! ### Claim C2 -/

/-- C2, counterexample: a tool call whose serialized argument payload does
not parse makes `json.loads` raise before the registry lookup and outside
the `try`, so the exception propagates out of `chat` instead of being
converted into a tool message. -/
theorem c2_counterexample :
    (c2cexAgent.chat c2BadService "hi" 5).2 =
      Except.error "Invalid JSON: not json" := by
  decide

/-- C2 amended: an exception raised while invoking the registered callable
is caught and converted into an "Error executing <name>: <message>" tool
result; and provided every argument payload produced by the service
parses, no exception propagates out of `chat`. Exceptions raised while
parsing the argument payload are not covered: they propagate. -/
theorem c2_tool_errors_amended :
    (∀ (a : InceptionAgent) (tc : ToolCall) (args : Args) (f : ToolFn) (e : String),
      tc.arguments = ArgPayload.wellFormed args →
      dictGet tc.name a.tool_functions = some f →
      f args = Except.error e →
      execute_tool_call a tc =
        Except.ok ("Error executing " ++ tc.name ++ ": " ++ e)) ∧
    (∀ service : Service,
      (∀ msgs mdl tls tc, tc ∈ (service msgs mdl tls).tool_calls →
        tc.arguments.isWellFormed = true) →
      ∀ (a : InceptionAgent) (u : String) (n : Nat),
        ∃ ans, (a.chat service u n).2 = Except.ok ans) := by
  constructor
  · intro a tc args f e ha hf he
    simp only [execute_tool_call, ha, json_loads, hf, he]
  · intro service hwf a u n
    exact chat_loop_ok_of_wellFormed service hwf n (appendMsg a (userMsg u))

/-- Witness for `c2_tool_errors_amended` at concrete inputs. -/
theorem c2_witness :
    execute_tool_call c2wAgent ⟨"t1", "breaker", ArgPayload.wellFormed []⟩ =
      Except.ok ("Error executing " ++ "breaker" ++ ": " ++ "boom") ∧
    ∃ ans, (c2wAgent.chat c2wService "hi" 5).2 = Except.ok ans :=
  ⟨c2_tool_errors_amended.1 c2wAgent ⟨"t1", "breaker", ArgPayload.wellFormed []⟩
      [] c2wFn "boom" rfl rfl rfl,
   c2_tool_errors_amended.2 c2wService
     (fun msgs mdl tls tc htc => by
       simp [c2wService] at htc
       subst htc
       rfl)
     c2wAgent "hi" 5⟩

/-! ### Claim C5 -/

/-- C5, counterexample: with a service that returns a tool-call request on
every iteration but carries a malformed argument payload, `chat` raises
after a single round trip instead of running the full budget and
returning the sentinel. -/
theorem c5_counterexample :
    ((mkAgent "m" "s").chat c5BadService "hi" 5).2 =
      Except.error "Invalid JSON: oops" ∧
    ((mkAgent "m" "s").chat c5BadService "hi" 5).2 ≠
      Except.ok "Max iterations reached without final response" ∧
    chat_calls (mkAgent "m" "s") c5BadService "hi" 5 = 1 := by
  decide

/-- C5 amended: if the service returns a tool-call request on every
iteration and every requested call's argument payload parses, `chat`
terminates after exactly the configured maximum number of service round
trips and returns the budget-exhausted sentinel without raising. -/
theorem c5_exhaustion_amended (service : Service) (a : InceptionAgent)
    (u : String) (n : Nat)
    (hcalls : ∀ msgs mdl tls, (service msgs mdl tls).tool_calls ≠ [])
    (hwf : ∀ msgs mdl tls tc, tc ∈ (service msgs mdl tls).tool_calls →
      tc.arguments.isWellFormed = true) :
    (a.chat service u n).2 =
      Except.ok "Max iterations reached without final response" ∧
    chat_calls a service u n = n :=
  chat_loop_exhausts service hcalls hwf n (appendMsg a (userMsg u))

/-- Witness for `c5_exhaustion_amended` at the default budget of 5. -/
theorem c5_witness :
    ((mkAgent "m" "s").chat c5wService "hi" 5).2 =
      Except.ok "Max iterations reached without final response" ∧
    chat_calls (mkAgent "m" "s") c5wService "hi" 5 = 5 :=
  c5_exhaustion_amended c5wService (mkAgent "m" "s") "hi" 5
    (fun msgs mdl tls => by simp [c5wService])
    (fun msgs mdl tls tc htc => by
      simp [c5wService] at htc
      subst htc
      rfl)

/-! ### Claim C6 -/

/-- One loop iteration whose response carries tool calls that all execute
without an uncaught exception: the loop continues on the extended state. -/
theorem chat_loop_step_tools (service : Service) (fuel : Nat)
    (a : InceptionAgent) (m : Message) (a2 : InceptionAgent)
    (hm : service a.conversation_history a.model (toolsArg a.tools) = m)
    (hne : m.tool_calls ≠ [])
    (hrun : run_tool_calls (appendMsg a m) m.tool_calls = (a2, none)) :
    chat_loop service (fuel + 1) a = chat_loop service fuel a2 := by
  simp only [chat_loop, hm]
  rw [if_neg (by simp [List.isEmpty_iff, hne])]
  rw [hrun]

/-- One loop iteration whose response carries no tool calls: the loop
returns that message's content. -/
theorem chat_loop_step_final (service : Service) (fuel : Nat)
    (a : InceptionAgent) (m : Message)
    (hm : service a.conversation_history a.model (toolsArg a.tools) = m)
    (hempty : m.tool_calls = []) :
    chat_loop service (fuel + 1) a = (appendMsg a m, Except.ok m.content) := by
  simp only [chat_loop, hm]
  rw [if_pos (by simp [hempty])]

/-- C6, counterexample to the unconditional claim: with no entry named
`nosuch` and a response requesting `nosuch` with a malformed argument
payload, `chat` raises (because `json.loads` runs before the not-found
check) and no "not found" tool message reaches the transcript. -/
theorem c6_counterexample :
    ((mkAgent "m" "s").chat c6BadService "hi" 5).2 =
      Except.error "Invalid JSON: bad" ∧
    (((mkAgent "m" "s").chat c6BadService "hi" 5).1.conversation_history.filter
      (fun m => m.role == "tool")).length = 0 := by
  decide

/-- C6 amended: if the registry has no entry named `X`, a response
requests a single call to `X` whose argument payload parses, and the
following response is tool-call-free, then `chat` returns without raising
and the transcript contains the tool message whose content is the
"Error: Function X not found" string. -/
theorem c6_not_found_amended (service : Service) (a : InceptionAgent)
    (u X id : String) (args : Args) (m1 m2 : Message) (n : Nat)
    (hX : dictGet X a.tool_functions = none)
    (h1 : service (a.conversation_history ++ [userMsg u]) a.model
      (toolsArg a.tools) = m1)
    (htc : m1.tool_calls = [⟨id, X, ArgPayload.wellFormed args⟩])
    (h2 : service (a.conversation_history ++ [userMsg u, m1,
      toolMsg id (notFoundMsg X)]) a.model (toolsArg a.tools) = m2)
    (hm2 : m2.tool_calls = [])
    (hn : 2 ≤ n) :
    (a.chat service u n).2 = Except.ok m2.content ∧
    (a.chat service u n).1.conversation_history =
      a.conversation_history ++ [userMsg u, m1, toolMsg id (notFoundMsg X), m2] := by
  obtain ⟨k, rfl⟩ : ∃ k, n = k + 2 := ⟨n - 2, by omega⟩
  set a1 := appendMsg a (userMsg u) with ha1
  have e1 : service a1.conversation_history a1.model (toolsArg a1.tools) = m1 := by
    simpa [ha1, appendMsg] using h1
  have hX1 : dictGet X (appendMsg a1 m1).tool_functions = none := by
    simpa [ha1, appendMsg] using hX
  have erun : run_tool_calls (appendMsg a1 m1) m1.tool_calls =
      (appendMsg (appendMsg a1 m1) (toolMsg id (notFoundMsg X)), none) := by
    rw [htc]
    simp only [run_tool_calls, execute_tool_call, json_loads, hX1]
  have step1 : chat_loop service (k + 1 + 1) a1 =
      chat_loop service (k + 1)
        (appendMsg (appendMsg a1 m1) (toolMsg id (notFoundMsg X))) :=
    chat_loop_step_tools service (k + 1) a1 m1 _ e1 (by rw [htc]; simp) erun
  set a2 := appendMsg (appendMsg a1 m1) (toolMsg id (notFoundMsg X)) with ha2
  have e2 : service a2.conversation_history a2.model (toolsArg a2.tools) = m2 := by
    simpa [ha2, ha1, appendMsg, List.append_assoc] using h2
  have step2 : chat_loop service (k + 1) a2 =
      (appendMsg a2 m2, Except.ok m2.content) :=
    chat_loop_step_final service k a2 m2 e2 hm2
  have hres : a.chat service u (k + 2) =
      (appendMsg a2 m2, Except.ok m2.content) := by
    show chat_loop service (k + 2) a1 = _
    exact step1.trans step2
  rw [hres]
  exact ⟨rfl, by simp [ha2, ha1, appendMsg, List.append_assoc]⟩

/-- Witness for `c6_not_found_amended` at a concrete two-phase service. -/
theorem c6_witness :
    dictGet "lookup" (mkAgent "m" "s").tool_functions = none ∧
    ((mkAgent "m" "s").chat c6wService "hi" 5).2 = Except.ok c6wSecond.content ∧
    ((mkAgent "m" "s").chat c6wService "hi" 5).1.conversation_history =
      (mkAgent "m" "s").conversation_history ++
        [userMsg "hi", c6wFirst, toolMsg "w1" (notFoundMsg "lookup"), c6wSecond] :=
  ⟨rfl,
   (c6_not_found_amended c6wService (mkAgent "m" "s") "hi" "lookup" "w1" []
      c6wFirst c6wSecond 5 rfl (by decide) rfl (by decide) rfl (by decide)).1,
   (c6_not_found_amended c6wService (mkAgent "m" "s") "hi" "lookup" "w1" []
      c6wFirst c6wSecond 5 rfl (by decide) rfl (by decide) rfl (by decide)).2⟩

/-! ### Claim C7 -/

/-- C7: with maximum iterations 2 and a remote that always requests the
registered no-op tool, `chat "hi"` returns the sentinel after exactly 2
round trips and the transcript has length 6 with the role pattern
system, user, (assistant, tool) twice. -/
theorem c7_two_iteration_scenario :
    (c7Agent.chat c7Service "hi" 2).2 =
      Except.ok "Max iterations reached without final response" ∧
    chat_calls c7Agent c7Service "hi" 2 = 2 ∧
    (c7Agent.chat c7Service "hi" 2).1.conversation_history.length = 6 ∧
    (c7Agent.chat c7Service "hi" 2).1.conversation_history.map Message.role =
      ["system", "user", "assistant", "tool", "assistant", "tool"] := by
  decide

/-! ### Claim C8 -/

/-- C8, counterexample: after registering the name `dup` twice, the tool
definition list sent to the remote service contains two definitions named
`dup`, not exactly one per registered name — `add_tool` appends to
`self.tools` unconditionally. -/
theorem c8_counterexample :
    (c8Agent.tools.filter (fun t => t.name == "dup")).length = 2 := by
  decide

/-- C8 amended: registering a name overwrites the name-to-callable
mapping entry (lookups of that name yield only the new callable, other
names are untouched), but the tool definition list is appended to
unconditionally, so a duplicate registration leaves two definitions with
the same name in the list sent to the remote service. -/
theorem c8_register_amended (a : InceptionAgent)
    (name description parameters : String) (f : ToolFn) :
    dictGet name (add_tool a name description parameters f).tool_functions =
      some f ∧
    (∀ k, k ≠ name →
      dictGet k (add_tool a name description parameters f).tool_functions =
        dictGet k a.tool_functions) ∧
    (add_tool a name description parameters f).tools =
      a.tools ++ [{ name := name, description := description,
                    parameters := parameters }] := by
  refine ⟨?_, ?_, rfl⟩
  · exact dictGet_dictInsert_self a.tool_functions name f
  · intro k hk
    exact dictGet_dictInsert_ne a.tool_functions name f k hk

/-- Witness for `c8_register_amended` at the concrete duplicate
registration. -/
theorem c8_witness :
    dictGet "dup" c8Agent.tool_functions = some c8f2 ∧
    ("other" ≠ "dup" ∧
      dictGet "other" c8Agent.tool_functions =
        dictGet "other"
          (add_tool (mkAgent "m" "s") "dup" "first version" "schema-a"
            c8f1).tool_functions) ∧
    c8Agent.tools =
      (add_tool (mkAgent "m" "s") "dup" "first version" "schema-a" c8f1).tools ++
        [{ name := "dup", description := "second version",
           parameters := "schema-b" }] :=
  ⟨(c8_register_amended
      (add_tool (mkAgent "m" "s") "dup" "first version" "schema-a" c8f1)
      "dup" "second version" "schema-b" c8f2).1,
   ⟨by decide,
    (c8_register_amended
      (add_tool (mkAgent "m" "s") "dup" "first version" "schema-a" c8f1)
      "dup" "second version" "schema-b" c8f2).2.1 "other" (by decide)⟩,
   (c8_register_amended
      (add_tool (mkAgent "m" "s") "dup" "first version" "schema-a" c8f1)
      "dup" "second version" "schema-b" c8f2).2.2⟩

/-! ### Claim C10 -/

/-- C10: when the remote moderation call raises, both guardrail checks
fail open — they return `(True, "")` — and `ChatAgent.chat` proceeds with
the turn (appending the unmoderated input and calling the completion
service) exactly as if the input guardrail had passed. -/
theorem c10_moderation_fails_open :
    (∀ (openai_client : Moderator) (s e : String),
      openai_client s = Except.error e →
      check_input_safety openai_client s = (true, "") ∧
      check_output_safety openai_client s = (true, "")) ∧
    (∀ (openai_client : Moderator) (mercury_client : Completion)
        (ag : ChatAgent) (u e : String),
      openai_client u = Except.error e →
      ag.chat openai_client mercury_client u =
        chat_after_input_guardrail ag openai_client mercury_client u) := by
  constructor
  · intro mod s e h
    constructor
    · simp only [check_input_safety, h]
    · simp only [check_output_safety, h]
  · intro mod comp ag u e h
    have h1 : check_input_safety mod u = (true, "") := by
      simp only [check_input_safety, h]
    simp only [ChatAgent.chat, h1]
    simp

/-- Witness for `c10_moderation_fails_open` at a concrete raising
moderation client. -/
theorem c10_witness :
    c10Moderator "hi" = Except.error "api down" ∧
    check_input_safety c10Moderator "hi" = (true, "") ∧
    check_output_safety c10Moderator "hi" = (true, "") ∧
    mkChatAgent.chat c10Moderator c10Completion "hi" =
      chat_after_input_guardrail mkChatAgent c10Moderator c10Completion "hi" :=
  ⟨rfl,
   (c10_moderation_fails_open.1 c10Moderator "hi" "api down" rfl).1,
   (c10_moderation_fails_open.1 c10Moderator "hi" "api down" rfl).2,
   c10_moderation_fails_open.2 c10Moderator c10Completion mkChatAgent "hi"
     "api down" rfl⟩
